import Mathlib

/-!
Verification of the `music-player` repository (`src/player.py`).

The program is a single class `RandomAudioPlayer` with mutable fields
`playlist : list`, `current_index : int`, `is_playing : bool`, plus an
external VLC media player and a GPIO button.  We embed it shallowly:

* `PlayerState` carries the three mutable fields of the Python object,
  the status of the external Media Backend (`backend`), and three
  observation-only trace fields: `cmds` (the backend commands issued so
  far), `logs` (the lines printed so far) and `checks` (how many times
  the backend status was queried).  The trace fields change nothing in
  the control flow; they only record what the Python code does via
  `self.player.…` and `print`.
* `random.shuffle` is modelled by an oracle `sh : List String → List String`;
  theorems that need it assume `(sh l).Perm l` (a shuffle permutes).
* VLC's `player.get_state()` statuses are the inductive `VlcState`; a VLC
  player with no media loaded reports `NothingSpecial`.  Spontaneous
  status evolution between two polls is an oracle
  `ev : VlcState → VlcState` applied to the stored status at each poll
  cycle of `run`.
* Python list indexing `playlist[current_index]` is embedded as
  `List.getD _ _ ""`; on every reachable state the index is in range, so
  the default is never consulted in the theorems below.
* The filesystem walked by `load_playlist` is the output of `os.walk`:
  a list of `WalkDir` entries (directory path plus the file names
  directly in it), one per directory of the tree, root first;
  `Option (List WalkDir)` models the `os.path.exists` check of the root
  directory.  The walk itself is an external collaborator (the spec
  scopes filesystem traversal out as an opaque directory walk).
-/

namespace MusicPlayer

/-- Playback status reported by the external VLC backend (`vlc.State`). -/
inductive VlcState where
  | NothingSpecial
  | Opening
  | Buffering
  | Playing
  | Paused
  | Stopped
  | Ended
  | Error
deriving DecidableEq, Repr

/-- Commands the controller can issue to the Media Backend:
`loadPlay t` is the `media_new`/`set_media`/`play` triple of
`play_next` (one load-and-play of track `t`), `stopCmd` is `player.stop()`. -/
inductive Cmd where
  | loadPlay : String → Cmd
  | stopCmd : Cmd
deriving DecidableEq, Repr

/-- `SUPPORTED_FORMATS` from `player.py`. -/
def SUPPORTED_FORMATS : List String :=
  [".mp3", ".wav", ".ogg", ".flac", ".m4a", ".aac"]

/-- `file.lower().endswith(SUPPORTED_FORMATS)` from `load_playlist`:
the lowercased file name ends in one of the supported extensions.
Stated on the character lists underlying the strings. -/
def matchesFormat (file : String) : Bool :=
  SUPPORTED_FORMATS.any
    (fun ext => ext.data.isSuffixOf (file.data.map Char.toLower))

/-- `os.path.basename` (the part of the path after the last slash). -/
def basename (p : String) : String :=
  ⟨(p.data.reverse.takeWhile (fun c => c ≠ '/')).reverse⟩

/-- The mutable state of a `RandomAudioPlayer` object together with the
backend status and the observation traces (commands, log lines, number of
status queries). -/
structure PlayerState where
  playlist : List String
  current_index : Nat
  is_playing : Bool
  backend : VlcState
  cmds : List Cmd
  logs : List String
  checks : Nat
deriving DecidableEq, Repr

/-- `RandomAudioPlayer.play_next`, with the shuffle oracle `sh` standing in
for `random.shuffle`.  Mirrors the Python line for line: empty-playlist
early return with its log line; read the track at the cursor; print;
issue one load-and-play (the backend starts `Playing`); advance the
cursor modulo the length; if the new cursor is `0`, reshuffle in place. -/
def play_next (sh : List String → List String) (σ : PlayerState) : PlayerState :=
  if σ.playlist = [] then
    { σ with logs := σ.logs ++ ["No tracks to play"] }
  else
    let track := σ.playlist.getD σ.current_index ""
    let idx := (σ.current_index + 1) % σ.playlist.length
    let σ1 : PlayerState :=
      { σ with
        logs := σ.logs ++ ["Playing: " ++ basename track],
        cmds := σ.cmds ++ [Cmd.loadPlay track],
        backend := VlcState.Playing,
        current_index := idx }
    if idx = 0 then
      { σ1 with
        playlist := sh σ1.playlist,
        logs := σ1.logs ++ ["Reshuffling playlist..."] }
    else
      σ1

/-- `RandomAudioPlayer.start_playing` (the `when_pressed` handler). -/
def start_playing (sh : List String → List String) (σ : PlayerState) : PlayerState :=
  if σ.is_playing then σ
  else
    play_next sh
      { σ with
        is_playing := true,
        logs := σ.logs ++ ["Switch ON - Starting playback"] }

/-- `RandomAudioPlayer.stop_playing` (the `when_released` handler).
`player.stop()` moves the backend to `Stopped`. -/
def stop_playing (σ : PlayerState) : PlayerState :=
  if σ.is_playing then
    { σ with
      is_playing := false,
      backend := VlcState.Stopped,
      cmds := σ.cmds ++ [Cmd.stopCmd],
      logs := σ.logs ++ ["Switch OFF - Stopping playback"] }
  else σ

/-- One iteration of the `while True` loop of `RandomAudioPlayer.run`.
`ev` is the environment oracle for this cycle: the status the backend has
evolved to since the previous cycle (a finished track takes `Playing` to
`Ended`, etc.).  If `is_playing`, the loop queries the status (counted in
`checks`) and calls `play_next` exactly when the status is `Ended` or
`Stopped`; otherwise the cycle does nothing. -/
def run_cycle (sh : List String → List String) (ev : VlcState → VlcState)
    (σ : PlayerState) : PlayerState :=
  if σ.is_playing then
    let s := ev σ.backend
    let σ1 : PlayerState := { σ with backend := s, checks := σ.checks + 1 }
    if s = VlcState.Ended ∨ s = VlcState.Stopped then play_next sh σ1 else σ1
  else σ

/-- A run of consecutive poll cycles of `RandomAudioPlayer.run`, one
environment oracle per cycle. -/
def run_loop (sh : List String → List String)
    (evs : List (VlcState → VlcState)) (σ : PlayerState) : PlayerState :=
  evs.foldl (fun σ ev => run_cycle sh ev σ) σ

/-- One directory visited by `os.walk`: its path (the `root` variable of
the Python loop) and the names of the plain files directly in it.
`os.walk` yields one such entry for the scanned root directory and one
for each of its subdirectories, recursively; the traversal itself is an
external collaborator (the spec scopes filesystem traversal out as an
opaque directory walk yielding a sequence of paths), so a walk is an
input here. -/
structure WalkDir where
  path : String
  files : List String
deriving DecidableEq, Repr

/-- The `os.walk` collection loop of `load_playlist`: for every visited
directory, every file whose lowercased name ends in a supported
extension, joined to its directory's path (`os.path.join(root, file)`). -/
def scanWalk (walk : List WalkDir) : List String :=
  walk.flatMap (fun d =>
    (d.files.filter matchesFormat).map (fun f => d.path ++ "/" ++ f))

/-- All files of the walked directory tree, as (full path, file name)
pairs — the directory contents `D` the spec quantifies over. -/
def allFiles (walk : List WalkDir) : List (String × String) :=
  walk.flatMap (fun d => d.files.map (fun f => (d.path ++ "/" ++ f, f)))

/-- All directory paths of the walked directory tree. -/
def allDirs (walk : List WalkDir) : List String :=
  walk.map WalkDir.path

/-- `RandomAudioPlayer.load_playlist`: `none` models a root directory that
fails the `os.path.exists` check, `some walk` the walk of an existing
root.  Returns the playlist together with the printed log lines. -/
def load_playlist (sh : List String → List String) (root : String)
    (fs : Option (List WalkDir)) : List String × List String :=
  let logs0 := ["Scanning " ++ root ++ " for audio files..."]
  match fs with
  | none =>
      ([], logs0 ++ ["Error: Directory " ++ root ++ " does not exist!"])
  | some walk =>
      let pl := scanWalk walk
      if pl = [] then
        ([], logs0 ++ ["No audio files found in " ++ root])
      else
        (sh pl, logs0 ++ ["Found " ++ toString pl.length ++ " audio files"])

/-! ### Helper lemmas -/

lemma play_next_empty (sh : List String → List String) (σ : PlayerState)
    (h : σ.playlist = []) :
    play_next sh σ = { σ with logs := σ.logs ++ ["No tracks to play"] } := by
  simp [play_next, h]

lemma play_next_spec (sh : List String → List String) (σ : PlayerState)
    (h : σ.playlist ≠ []) :
    (play_next sh σ).cmds
        = σ.cmds ++ [Cmd.loadPlay (σ.playlist.getD σ.current_index "")] ∧
    (play_next sh σ).current_index = (σ.current_index + 1) % σ.playlist.length ∧
    (play_next sh σ).playlist
        = (if (σ.current_index + 1) % σ.playlist.length = 0 then sh σ.playlist
           else σ.playlist) ∧
    (play_next sh σ).is_playing = σ.is_playing ∧
    (play_next sh σ).checks = σ.checks ∧
    (play_next sh σ).backend = VlcState.Playing := by
  simp only [play_next, if_neg h]
  split <;> simp_all

lemma play_next_is_playing (sh : List String → List String) (σ : PlayerState) :
    (play_next sh σ).is_playing = σ.is_playing := by
  by_cases h : σ.playlist = []
  · simp [play_next_empty sh σ h]
  · exact (play_next_spec sh σ h).2.2.2.1

lemma start_playing_is_playing (sh : List String → List String)
    (σ : PlayerState) : (start_playing sh σ).is_playing = true := by
  unfold start_playing
  split
  · assumption
  · rw [play_next_is_playing]

/-! ### Claim theorems -/

/-- C9: calling `play_next` on an empty playlist changes neither the
playlist, nor the cursor, nor the `is_playing` flag, and issues no
backend command (it only prints the log line). -/
theorem play_next_empty_atomic (sh : List String → List String)
    (σ : PlayerState) (h : σ.playlist = []) :
    (play_next sh σ).playlist = σ.playlist ∧
    (play_next sh σ).current_index = σ.current_index ∧
    (play_next sh σ).is_playing = σ.is_playing ∧
    (play_next sh σ).cmds = σ.cmds := by
  rw [play_next_empty sh σ h]
  exact ⟨rfl, rfl, rfl, rfl⟩

/-- Witness for C9 at a concrete empty-playlist state. -/
theorem play_next_empty_atomic_witness :
    (⟨[], 0, false, VlcState.NothingSpecial, [], [], 0⟩ : PlayerState).playlist
        = [] ∧
    ((play_next id ⟨[], 0, false, VlcState.NothingSpecial, [], [], 0⟩).playlist
          = [] ∧
      (play_next id ⟨[], 0, false, VlcState.NothingSpecial, [], [], 0⟩).current_index
          = 0 ∧
      (play_next id ⟨[], 0, false, VlcState.NothingSpecial, [], [], 0⟩).is_playing
          = false ∧
      (play_next id ⟨[], 0, false, VlcState.NothingSpecial, [], [], 0⟩).cmds
          = []) :=
  ⟨rfl, play_next_empty_atomic id ⟨[], 0, false, VlcState.NothingSpecial, [], [], 0⟩ rfl⟩

/-- C2: switch edge handling is idempotent.  A second consecutive
`SwitchActivated` leaves the state exactly as after the first and issues
no further command (so from `IDLE` with a non-empty playlist the pair of
activations issues exactly one load-and-play in total), and
`SwitchDeactivated` while already `IDLE` changes nothing and issues no
command. -/
theorem switch_idempotent (sh : List String → List String) (σ : PlayerState) :
    start_playing sh (start_playing sh σ) = start_playing sh σ ∧
    (σ.is_playing = false → σ.playlist ≠ [] →
      (start_playing sh (start_playing sh σ)).cmds
        = σ.cmds ++ [Cmd.loadPlay (σ.playlist.getD σ.current_index "")]) ∧
    (σ.is_playing = false → stop_playing σ = σ) := by
  have hid : start_playing sh (start_playing sh σ) = start_playing sh σ := by
    conv_lhs => rw [start_playing]
    rw [if_pos (start_playing_is_playing sh σ)]
  refine ⟨hid, ?_, ?_⟩
  · intro hidle hne
    rw [hid]
    unfold start_playing
    rw [hidle]
    simp only [Bool.false_eq_true, if_false]
    have := (play_next_spec sh
      { σ with is_playing := true,
               logs := σ.logs ++ ["Switch ON - Starting playback"] } hne).1
    simpa using this
  · intro hidle
    unfold stop_playing
    rw [hidle]
    simp

/-- Witness for C2 from a concrete `IDLE` state with a one-track playlist. -/
theorem switch_idempotent_witness :
    ((⟨["a"], 0, false, VlcState.NothingSpecial, [], [], 0⟩ : PlayerState).is_playing
        = false ∧
      (⟨["a"], 0, false, VlcState.NothingSpecial, [], [], 0⟩ : PlayerState).playlist
        ≠ []) ∧
    (start_playing id (start_playing id
          ⟨["a"], 0, false, VlcState.NothingSpecial, [], [], 0⟩)).cmds
      = [Cmd.loadPlay "a"] := by
  refine ⟨⟨rfl, by decide⟩, ?_⟩
  have h := (switch_idempotent id
    ⟨["a"], 0, false, VlcState.NothingSpecial, [], [], 0⟩).2.1 rfl (by decide)
  simpa using h

/-- C1: one poll cycle in `PLAYING` with a polled status of `Ended` or
`Stopped` issues exactly one load-and-play command, for the track at the
cursor, and the session stays `PLAYING`; a polled status of `Paused` or
`Playing` issues no command. -/
theorem poll_track_finished (sh : List String → List String) (σ : PlayerState)
    (s : VlcState) (hp : σ.is_playing = true) (hne : σ.playlist ≠ []) :
    ((s = VlcState.Ended ∨ s = VlcState.Stopped) →
      (run_cycle sh (fun _ => s) σ).cmds
          = σ.cmds ++ [Cmd.loadPlay (σ.playlist.getD σ.current_index "")] ∧
      (run_cycle sh (fun _ => s) σ).is_playing = true) ∧
    ((s = VlcState.Paused ∨ s = VlcState.Playing) →
      (run_cycle sh (fun _ => s) σ).cmds = σ.cmds) := by
  unfold run_cycle
  rw [hp]
  simp only [if_true]
  constructor
  · intro hs
    rw [if_pos hs]
    refine ⟨?_, ?_⟩
    · simpa using (play_next_spec sh
        { σ with is_playing := true, backend := s, checks := σ.checks + 1 }
        hne).1
    · rw [play_next_is_playing]
  · intro hs
    have hns : ¬(s = VlcState.Ended ∨ s = VlcState.Stopped) := by
      rcases hs with h | h <;> subst h <;> simp
    rw [if_neg hns]

/-- Witness for C1: concrete `PLAYING` state, status `Ended`. -/
theorem poll_track_finished_witness :
    ((⟨["a", "b"], 0, true, VlcState.Playing, [], [], 0⟩ : PlayerState).is_playing
        = true ∧
      (⟨["a", "b"], 0, true, VlcState.Playing, [], [], 0⟩ : PlayerState).playlist
        ≠ [] ∧
      (VlcState.Ended = VlcState.Ended ∨ VlcState.Ended = VlcState.Stopped)) ∧
    (run_cycle id (fun _ => VlcState.Ended)
        ⟨["a", "b"], 0, true, VlcState.Playing, [], [], 0⟩).cmds
      = [Cmd.loadPlay "a"] := by
  refine ⟨⟨rfl, by decide, Or.inl rfl⟩, ?_⟩
  have h := ((poll_track_finished id
      ⟨["a", "b"], 0, true, VlcState.Playing, [], [], 0⟩ VlcState.Ended rfl
      (by decide)).1 (Or.inl rfl)).1
  simpa using h

lemma play_next_checks (sh : List String → List String) (σ : PlayerState) :
    (play_next sh σ).checks = σ.checks := by
  by_cases h : σ.playlist = []
  · simp [play_next_empty sh σ h]
  · exact (play_next_spec sh σ h).2.2.2.2.1

lemma run_cycle_idle (sh : List String → List String)
    (ev : VlcState → VlcState) (σ : PlayerState) (h : σ.is_playing = false) :
    run_cycle sh ev σ = σ := by
  simp [run_cycle, h]

lemma run_loop_cons (sh : List String → List String)
    (ev : VlcState → VlcState) (evs : List (VlcState → VlcState))
    (σ : PlayerState) :
    run_loop sh (ev :: evs) σ = run_loop sh evs (run_cycle sh ev σ) := rfl

lemma run_loop_idle (sh : List String → List String)
    (evs : List (VlcState → VlcState)) (σ : PlayerState)
    (h : σ.is_playing = false) : run_loop sh evs σ = σ := by
  induction evs with
  | nil => rfl
  | cons ev evs ih => rw [run_loop_cons, run_cycle_idle sh ev σ h, ih]

lemma stop_playing_is_playing (σ : PlayerState) :
    (stop_playing σ).is_playing = false := by
  unfold stop_playing
  split
  · rfl
  · rename_i h
    simpa using h

/-- C3: on a non-empty playlist, `play_next` emits exactly one
load-and-play for the track at the cursor, advances the cursor by one
modulo the playlist length, and reshuffles the whole sequence in place —
within the same call, hence before any subsequent call — exactly when
the advanced cursor equals `0`. -/
theorem next_advances_and_reshuffles (sh : List String → List String)
    (σ : PlayerState) (hne : σ.playlist ≠ []) :
    (play_next sh σ).cmds
        = σ.cmds ++ [Cmd.loadPlay (σ.playlist.getD σ.current_index "")] ∧
    (play_next sh σ).current_index
        = (σ.current_index + 1) % σ.playlist.length ∧
    ((σ.current_index + 1) % σ.playlist.length = 0 →
        (play_next sh σ).playlist = sh σ.playlist) ∧
    ((σ.current_index + 1) % σ.playlist.length ≠ 0 →
        (play_next sh σ).playlist = σ.playlist) := by
  obtain ⟨h1, h2, h3, -⟩ := play_next_spec sh σ hne
  refine ⟨h1, h2, ?_, ?_⟩ <;> intro h <;> simp [h3, h]

/-- Witness for C3: cursor at the last track, so the call wraps and
reshuffles (shuffle oracle `List.reverse` for visibility). -/
theorem next_advances_and_reshuffles_witness :
    ((⟨["a", "b"], 1, true, VlcState.Playing, [], [], 0⟩ : PlayerState).playlist
        ≠ [] ∧ (1 + 1) % 2 = 0) ∧
    (play_next List.reverse
        ⟨["a", "b"], 1, true, VlcState.Playing, [], [], 0⟩).cmds
      = [Cmd.loadPlay "b"] ∧
    (play_next List.reverse
        ⟨["a", "b"], 1, true, VlcState.Playing, [], [], 0⟩).current_index = 0 ∧
    (play_next List.reverse
        ⟨["a", "b"], 1, true, VlcState.Playing, [], [], 0⟩).playlist
      = ["b", "a"] := by
  have h := next_advances_and_reshuffles List.reverse
    ⟨["a", "b"], 1, true, VlcState.Playing, [], [], 0⟩ (by decide)
  refine ⟨⟨by decide, by decide⟩, by simpa using h.1, by simpa using h.2.1, ?_⟩
  have h3 := h.2.2.1 (by decide)
  simpa using h3

/-- C5 amended: the poll loop reacts only to `Ended` and `Stopped`; a
polled status of `Error` while `PLAYING` issues no command and leaves the
cursor and the playlist unchanged, so the controller stays on the failed
track instead of advancing. -/
theorem poll_error_no_advance (sh : List String → List String)
    (σ : PlayerState) (hp : σ.is_playing = true) :
    (run_cycle sh (fun _ => VlcState.Error) σ).cmds = σ.cmds ∧
    (run_cycle sh (fun _ => VlcState.Error) σ).current_index
        = σ.current_index ∧
    (run_cycle sh (fun _ => VlcState.Error) σ).playlist = σ.playlist ∧
    (run_cycle sh (fun _ => VlcState.Error) σ).is_playing = true := by
  unfold run_cycle
  rw [hp]
  simp

/-- C5 counterexample: a concrete `PLAYING` state whose backend reports
`Error`.  The claim says the controller advances to the next track as on
`TrackFinished`; in fact the poll cycle issues no command and the cursor
stays where it was. -/
theorem poll_error_counterexample :
    (run_cycle id (fun _ => VlcState.Error)
        ⟨["a", "b"], 1, true, VlcState.Error, [Cmd.loadPlay "a"], [], 0⟩).cmds
      = [Cmd.loadPlay "a"] ∧
    (run_cycle id (fun _ => VlcState.Error)
        ⟨["a", "b"], 1, true, VlcState.Error,
          [Cmd.loadPlay "a"], [], 0⟩).current_index = 1 := by
  decide

/-- Witness for C5's amended theorem at a concrete `PLAYING` state. -/
theorem poll_error_no_advance_witness :
    (⟨["a", "b"], 1, true, VlcState.Error, [], [], 0⟩ : PlayerState).is_playing
        = true ∧
    (run_cycle id (fun _ => VlcState.Error)
        ⟨["a", "b"], 1, true, VlcState.Error, [], [], 0⟩).cmds = [] ∧
    (run_cycle id (fun _ => VlcState.Error)
        ⟨["a", "b"], 1, true, VlcState.Error, [], [], 0⟩).current_index = 1 := by
  have h := poll_error_no_advance id
    ⟨["a", "b"], 1, true, VlcState.Error, [], [], 0⟩ rfl
  exact ⟨rfl, by simpa using h.1, by simpa using h.2.1⟩

/-- C7: a poll cycle queries the backend status exactly when the session
state is `PLAYING` (the `checks` counter grows by one iff `is_playing`,
and a cycle in `IDLE` is the identity), and from `PLAYING` a
`SwitchDeactivated` issues exactly one stop command, after which any
number of subsequent poll cycles leave the state untouched — in
particular they perform no status check. -/
theorem poll_only_when_playing (sh : List String → List String)
    (ev : VlcState → VlcState) (evs : List (VlcState → VlcState))
    (σ : PlayerState) :
    (run_cycle sh ev σ).checks
        = σ.checks + (if σ.is_playing then 1 else 0) ∧
    (σ.is_playing = false → run_cycle sh ev σ = σ) ∧
    (σ.is_playing = true →
      (stop_playing σ).cmds = σ.cmds ++ [Cmd.stopCmd] ∧
      run_loop sh evs (stop_playing σ) = stop_playing σ) := by
  refine ⟨?_, fun h => run_cycle_idle sh ev σ h, fun h => ⟨?_, ?_⟩⟩
  · unfold run_cycle
    by_cases h : σ.is_playing = true
    · rw [h]
      simp only [if_true]
      split
      · rw [play_next_checks]
      · rfl
    · rw [Bool.not_eq_true] at h
      simp [h]
  · simp [stop_playing, h]
  · exact run_loop_idle sh evs (stop_playing σ) (stop_playing_is_playing σ)

/-- Witness for C7: stop from a concrete `PLAYING` state, then two idle
poll cycles. -/
theorem poll_only_when_playing_witness :
    (⟨["a"], 0, true, VlcState.Playing, [Cmd.loadPlay "a"], [], 3⟩
        : PlayerState).is_playing = true ∧
    (stop_playing ⟨["a"], 0, true, VlcState.Playing,
        [Cmd.loadPlay "a"], [], 3⟩).cmds
      = [Cmd.loadPlay "a", Cmd.stopCmd] ∧
    run_loop id [id, id] (stop_playing ⟨["a"], 0, true, VlcState.Playing,
        [Cmd.loadPlay "a"], [], 3⟩)
      = stop_playing ⟨["a"], 0, true, VlcState.Playing,
          [Cmd.loadPlay "a"], [], 3⟩ := by
  have h := (poll_only_when_playing id id [id, id]
    ⟨["a"], 0, true, VlcState.Playing, [Cmd.loadPlay "a"], [], 3⟩).2.2 rfl
  exact ⟨rfl, by simpa using h.1, h.2⟩

lemma run_cycle_nothing_loaded (sh : List String → List String)
    (ev : VlcState → VlcState) (σ : PlayerState)
    (hev : ∀ s, s ≠ VlcState.Playing → ev s = s)
    (hb : σ.backend = VlcState.NothingSpecial) (hp : σ.is_playing = true) :
    run_cycle sh ev σ = { σ with checks := σ.checks + 1 } := by
  have hs : ev σ.backend = VlcState.NothingSpecial := by
    rw [hb]
    exact hev _ (by simp)
  cases σ with
  | mk pl ci ip bk cm lg ck =>
    simp only at hb hp
    subst hb
    subst hp
    simp only at hs
    simp [run_cycle, hs]

lemma run_loop_nothing_loaded (sh : List String → List String)
    (evs : List (VlcState → VlcState))
    (hev : ∀ ev ∈ evs, ∀ s, s ≠ VlcState.Playing → ev s = s)
    (σ : PlayerState) (hb : σ.backend = VlcState.NothingSpecial)
    (hp : σ.is_playing = true) :
    run_loop sh evs σ = { σ with checks := σ.checks + evs.length } := by
  induction evs generalizing σ with
  | nil => rfl
  | cons ev evs ih =>
    rw [run_loop_cons,
      run_cycle_nothing_loaded sh ev σ (hev ev (by simp)) hb hp,
      ih (fun e he s hs => hev e (List.mem_cons_of_mem ev he) s hs)
        { σ with checks := σ.checks + 1 } hb hp]
    have harith : σ.checks + 1 + evs.length = σ.checks + (ev :: evs).length := by
      simp
      omega
    simp only [harith]

/-- C6: with an empty playlist, `SwitchActivated` still moves the
controller to `PLAYING` but issues no backend command, and the
empty-playlist condition (`"No tracks to play"`) is logged exactly once
for the activation, not again on any of the subsequent poll cycles.
Environment assumption `hev`: the backend's status evolves spontaneously
only out of `Playing` — a player that never had media loaded keeps
reporting `NothingSpecial`. -/
theorem empty_playlist_logged_once (sh : List String → List String)
    (evs : List (VlcState → VlcState))
    (hev : ∀ ev ∈ evs, ∀ s, s ≠ VlcState.Playing → ev s = s)
    (σ : PlayerState) (hpl : σ.playlist = []) (hp : σ.is_playing = false)
    (hb : σ.backend = VlcState.NothingSpecial) :
    (start_playing sh σ).is_playing = true ∧
    (run_loop sh evs (start_playing sh σ)).cmds = σ.cmds ∧
    (run_loop sh evs (start_playing sh σ)).logs.count "No tracks to play"
        = σ.logs.count "No tracks to play" + 1 ∧
    (run_loop sh evs (start_playing sh σ)).is_playing = true := by
  have hτ : start_playing sh σ
      = { σ with
          is_playing := true,
          logs := (σ.logs ++ ["Switch ON - Starting playback"])
            ++ ["No tracks to play"] } := by
    unfold start_playing
    rw [hp]
    simp only [Bool.false_eq_true, if_false]
    rw [play_next_empty sh
      { σ with
        is_playing := true,
        logs := σ.logs ++ ["Switch ON - Starting playback"] } hpl]
  have hloop := run_loop_nothing_loaded sh evs hev (start_playing sh σ)
    (by rw [hτ]; exact hb) (by rw [hτ])
  refine ⟨by rw [hτ], ?_, ?_, ?_⟩
  · rw [hloop, hτ]
  · rw [hloop, hτ]
    show ((σ.logs ++ ["Switch ON - Starting playback"])
        ++ ["No tracks to play"]).count "No tracks to play"
      = σ.logs.count "No tracks to play" + 1
    rw [List.count_append, List.count_append]
    have h1 : (["Switch ON - Starting playback"] : List String).count
        "No tracks to play" = 0 := by decide
    have h2 : (["No tracks to play"] : List String).count
        "No tracks to play" = 1 := by decide
    rw [h1, h2]
  · rw [hloop, hτ]

/-- Witness for C6: empty playlist, one subsequent poll cycle with a
quiescent backend. -/
theorem empty_playlist_logged_once_witness :
    ((∀ ev ∈ ([id] : List (VlcState → VlcState)),
        ∀ s, s ≠ VlcState.Playing → ev s = s) ∧
      (⟨[], 0, false, VlcState.NothingSpecial, [], [], 0⟩
        : PlayerState).playlist = []) ∧
    (start_playing id
        ⟨[], 0, false, VlcState.NothingSpecial, [], [], 0⟩).is_playing
      = true ∧
    (run_loop id [id] (start_playing id
        ⟨[], 0, false, VlcState.NothingSpecial, [], [], 0⟩)).cmds
      = ([] : List Cmd) ∧
    (run_loop id [id] (start_playing id
        ⟨[], 0, false, VlcState.NothingSpecial, [], [], 0⟩)).logs.count
        "No tracks to play"
      = ([] : List String).count "No tracks to play" + 1 ∧
    (run_loop id [id] (start_playing id
        ⟨[], 0, false, VlcState.NothingSpecial, [], [], 0⟩)).is_playing
      = true := by
  have hev : ∀ ev ∈ ([id] : List (VlcState → VlcState)),
      ∀ s, s ≠ VlcState.Playing → ev s = s := by
    intro ev h s hs
    rw [List.mem_singleton] at h
    subst h
    rfl
  exact ⟨⟨hev, rfl⟩, empty_playlist_logged_once id [id] hev
    ⟨[], 0, false, VlcState.NothingSpecial, [], [], 0⟩ rfl rfl rfl⟩

/-- C10 amended: stopping playback changes, besides issuing the single
stop command, only the `is_playing` flag (and the backend's own status):
playlist order and cursor are untouched.  Hence deactivate-then-activate
starts — with a fresh load-and-play, never a resume — the track at the
cursor of the current permutation.  That track can coincide with the
interrupted one when the interrupted track ended a pass (the eager
wraparound reshuffle may place the same path at position `0`) or when
the playlist holds duplicate paths. -/
theorem stop_frame (sh : List String → List String) (σ : PlayerState)
    (h : σ.is_playing = true) :
    (stop_playing σ).playlist = σ.playlist ∧
    (stop_playing σ).current_index = σ.current_index ∧
    (stop_playing σ).is_playing = false ∧
    (stop_playing σ).cmds = σ.cmds ++ [Cmd.stopCmd] ∧
    (σ.playlist ≠ [] →
      (start_playing sh (stop_playing σ)).cmds
        = σ.cmds
          ++ [Cmd.stopCmd, Cmd.loadPlay (σ.playlist.getD σ.current_index "")]) := by
  have hstop : stop_playing σ
      = { σ with
          is_playing := false,
          backend := VlcState.Stopped,
          cmds := σ.cmds ++ [Cmd.stopCmd],
          logs := σ.logs ++ ["Switch OFF - Stopping playback"] } := by
    unfold stop_playing
    rw [h]
    simp
  refine ⟨by rw [hstop], by rw [hstop], by rw [hstop], by rw [hstop], ?_⟩
  intro hne
  rw [hstop]
  unfold start_playing
  simp only [Bool.false_eq_true, if_false]
  have hcmds := (play_next_spec sh
    { σ with
      is_playing := true,
      backend := VlcState.Stopped,
      cmds := σ.cmds ++ [Cmd.stopCmd],
      logs := (σ.logs ++ ["Switch OFF - Stopping playback"])
        ++ ["Switch ON - Starting playback"] } hne).1
  simpa using hcmds

/-- C10 counterexample: with the singleton playlist `["a"]` the
activation plays `"a"` and the eager wraparound reshuffle leaves `"a"`
at the cursor; after deactivate-then-activate the controller loads and
plays `"a"` again — the very track that was interrupted — refuting
"never resumes or replays the interrupted track". -/
theorem stop_restart_replays_counterexample :
    (start_playing id (stop_playing (start_playing id
        ⟨["a"], 0, false, VlcState.NothingSpecial, [], [], 0⟩))).cmds
      = [Cmd.loadPlay "a", Cmd.stopCmd, Cmd.loadPlay "a"] := by
  decide

/-- Witness for C10's amended theorem at a concrete `PLAYING` state. -/
theorem stop_frame_witness :
    ((⟨["a", "b"], 1, true, VlcState.Playing, [Cmd.loadPlay "a"], [], 0⟩
        : PlayerState).is_playing = true ∧
      (⟨["a", "b"], 1, true, VlcState.Playing, [Cmd.loadPlay "a"], [], 0⟩
        : PlayerState).playlist ≠ []) ∧
    (stop_playing ⟨["a", "b"], 1, true, VlcState.Playing,
        [Cmd.loadPlay "a"], [], 0⟩).playlist = ["a", "b"] ∧
    (stop_playing ⟨["a", "b"], 1, true, VlcState.Playing,
        [Cmd.loadPlay "a"], [], 0⟩).current_index = 1 ∧
    (start_playing id (stop_playing ⟨["a", "b"], 1, true, VlcState.Playing,
        [Cmd.loadPlay "a"], [], 0⟩)).cmds
      = [Cmd.loadPlay "a", Cmd.stopCmd, Cmd.loadPlay "b"] := by
  have h := stop_frame id
    ⟨["a", "b"], 1, true, VlcState.Playing, [Cmd.loadPlay "a"], [], 0⟩ rfl
  refine ⟨⟨rfl, by decide⟩, by simpa using h.1, by simpa using h.2.1, ?_⟩
  have h5 := h.2.2.2.2 (by decide)
  simpa using h5

lemma iterate_play_next (sh : List String → List String) (σ : PlayerState)
    (p : List String) (hne : p ≠ []) (hpl : σ.playlist = p)
    (hidx : σ.current_index = 0) :
    ∀ k, k ≤ p.length →
      ((play_next sh)^[k] σ).playlist = (if k = p.length then sh p else p) ∧
      ((play_next sh)^[k] σ).current_index = k % p.length ∧
      ((play_next sh)^[k] σ).cmds = σ.cmds ++ (p.take k).map Cmd.loadPlay := by
  have hlen : 0 < p.length := List.length_pos.mpr hne
  intro k
  induction k with
  | zero =>
    intro _
    refine ⟨?_, ?_, ?_⟩
    · rw [Function.iterate_zero_apply, hpl, if_neg (by omega)]
    · rw [Function.iterate_zero_apply, hidx, Nat.zero_mod]
    · simp
  | succ k ih =>
    intro hk1
    have hk : k < p.length := hk1
    obtain ⟨hP, hI, hC⟩ := ih (Nat.le_of_lt hk)
    have hPk : ((play_next sh)^[k] σ).playlist = p := by
      rw [hP, if_neg (by omega)]
    have hIk : ((play_next sh)^[k] σ).current_index = k := by
      rw [hI, Nat.mod_eq_of_lt hk]
    have hnek : ((play_next sh)^[k] σ).playlist ≠ [] := by
      rw [hPk]
      exact hne
    obtain ⟨c1, c2, c3, -⟩ := play_next_spec sh ((play_next sh)^[k] σ) hnek
    rw [Function.iterate_succ_apply']
    refine ⟨?_, ?_, ?_⟩
    · rw [c3, hPk, hIk]
      by_cases he : k + 1 = p.length
      · rw [if_pos (by rw [he, Nat.mod_self]), if_pos he]
      · have hlt : k + 1 < p.length := by omega
        rw [if_neg (by rw [Nat.mod_eq_of_lt hlt]; omega), if_neg he]
    · rw [c2, hPk, hIk]
    · rw [c1, hC, hPk, hIk]
      have htake : p.take (k + 1) = p.take k ++ [p.getD k ""] := by
        rw [List.getD_eq_getElem p "" hk, List.take_succ]
        congr 1
        simp [List.getElem?_eq_getElem hk]
      rw [htake]
      simp

/-- C4: starting a fresh pass (cursor `0`) over a non-empty playlist `p`,
the next `p.length` calls to `play_next` emit each track exactly once —
in fact exactly `p` in order — and afterwards the playlist is a
permutation of `p` with the cursor back at `0`, so the `(n+1)`-th call
emits one further track drawn from the same multiset. -/
theorem full_pass_permutation (sh : List String → List String)
    (hsh : ∀ l, (sh l).Perm l) (σ : PlayerState) (p : List String)
    (hne : p ≠ []) (hpl : σ.playlist = p) (hidx : σ.current_index = 0) :
    ((play_next sh)^[p.length] σ).cmds = σ.cmds ++ p.map Cmd.loadPlay ∧
    ((play_next sh)^[p.length] σ).playlist.Perm p ∧
    ((play_next sh)^[p.length] σ).current_index = 0 ∧
    ((play_next sh)^[p.length + 1] σ).cmds
        = ((play_next sh)^[p.length] σ).cmds
          ++ [Cmd.loadPlay (((play_next sh)^[p.length] σ).playlist.getD 0 "")] ∧
    ((play_next sh)^[p.length] σ).playlist.getD 0 "" ∈ p := by
  obtain ⟨hP, hI, hC⟩ := iterate_play_next sh σ p hne hpl hidx p.length le_rfl
  have hlen : 0 < p.length := List.length_pos.mpr hne
  have hPn : ((play_next sh)^[p.length] σ).playlist = sh p := by
    rw [hP, if_pos rfl]
  have hIn : ((play_next sh)^[p.length] σ).current_index = 0 := by
    rw [hI, Nat.mod_self]
  have hperm : (sh p).Perm p := hsh p
  have hne2 : ((play_next sh)^[p.length] σ).playlist ≠ [] := by
    rw [hPn]
    intro hcon
    rw [hcon] at hperm
    exact hne (List.Perm.nil_eq hperm).symm
  have hpos : 0 < ((play_next sh)^[p.length] σ).playlist.length :=
    List.length_pos.mpr hne2
  have hmem : ((play_next sh)^[p.length] σ).playlist.getD 0 ""
      ∈ ((play_next sh)^[p.length] σ).playlist := by
    rw [List.getD_eq_getElem _ "" hpos]
    exact List.getElem_mem hpos
  refine ⟨by rw [hC, List.take_length], by rw [hPn]; exact hperm, hIn, ?_, ?_⟩
  · rw [Function.iterate_succ_apply',
      (play_next_spec sh ((play_next sh)^[p.length] σ) hne2).1, hIn]
  · rw [hPn] at hmem ⊢
    exact hperm.subset hmem

/-- Witness for C4 on the concrete fresh playlist `["a", "b"]` with the
identity shuffle oracle. -/
theorem full_pass_permutation_witness :
    ((play_next id)^[2]
        (⟨["a", "b"], 0, true, VlcState.Playing, [], [], 0⟩ : PlayerState)).cmds
      = [Cmd.loadPlay "a", Cmd.loadPlay "b"] ∧
    ((play_next id)^[2]
        (⟨["a", "b"], 0, true, VlcState.Playing, [], [], 0⟩
          : PlayerState)).playlist.Perm ["a", "b"] ∧
    ((play_next id)^[2]
        (⟨["a", "b"], 0, true, VlcState.Playing, [], [], 0⟩
          : PlayerState)).current_index = 0 ∧
    ((play_next id)^[3]
        (⟨["a", "b"], 0, true, VlcState.Playing, [], [], 0⟩ : PlayerState)).cmds
      = [Cmd.loadPlay "a", Cmd.loadPlay "b", Cmd.loadPlay "a"] ∧
    ((play_next id)^[2]
        (⟨["a", "b"], 0, true, VlcState.Playing, [], [], 0⟩
          : PlayerState)).playlist.getD 0 "" ∈ (["a", "b"] : List String) := by
  have h := full_pass_permutation id (fun l => List.Perm.refl l)
    ⟨["a", "b"], 0, true, VlcState.Playing, [], [], 0⟩ ["a", "b"]
    (by decide) rfl rfl
  refine ⟨by simpa using h.1, h.2.1, h.2.2.1, ?_, h.2.2.2.2⟩
  have h4 := h.2.2.2.1
  rw [h.1] at h4
  simp only [List.length_cons, List.length_nil] at h4
  have hg : ((play_next id)^[2]
      (⟨["a", "b"], 0, true, VlcState.Playing, [], [], 0⟩
        : PlayerState)).playlist.getD 0 "" = "a" := by decide
  rw [hg] at h4
  simpa using h4

lemma scanWalk_eq_filter (walk : List WalkDir) :
    scanWalk walk
      = ((allFiles walk).filter (fun pn => matchesFormat pn.2)).map Prod.fst := by
  induction walk with
  | nil => rfl
  | cons d rest ih =>
    show (d.files.filter matchesFormat).map (fun f => d.path ++ "/" ++ f)
          ++ scanWalk rest
        = ((d.files.map (fun f => (d.path ++ "/" ++ f, f))
            ++ allFiles rest).filter (fun pn => matchesFormat pn.2)).map
              Prod.fst
    rw [List.filter_append, List.map_append, ih]
    congr 1
    rw [List.filter_map, List.map_map]
    rfl

/-- C8: the scanner's output over any walked directory tree is exactly
the file paths whose name matches the supported extensions
case-insensitively — stated both as a list equality and as a membership
characterization, so no non-matching file and nothing but a file of the
tree appears — and a missing root directory yields an empty playlist
with the error condition logged instead of aborting. -/
theorem scanner_exact (walk : List WalkDir) (root : String)
    (sh : List String → List String) :
    scanWalk walk
        = ((allFiles walk).filter (fun pn => matchesFormat pn.2)).map
            Prod.fst ∧
    (∀ q, q ∈ scanWalk walk
        ↔ ∃ n, (q, n) ∈ allFiles walk ∧ matchesFormat n = true) ∧
    (load_playlist sh root none).1 = [] ∧
    ("Error: Directory " ++ root ++ " does not exist!")
        ∈ (load_playlist sh root none).2 := by
  refine ⟨scanWalk_eq_filter walk, ?_, rfl, ?_⟩
  · intro q
    rw [scanWalk_eq_filter walk]
    simp only [List.mem_map, List.mem_filter]
    constructor
    · rintro ⟨⟨q1, n⟩, ⟨hmem, hmf⟩, rfl⟩
      exact ⟨n, hmem, hmf⟩
    · rintro ⟨n, hmem, hmf⟩
      exact ⟨(q, n), ⟨hmem, hmf⟩, rfl⟩
  · simp [load_playlist]

/-- A concrete walk: the root holds `a.mp3` and `b.txt`, its
subdirectory `sub` holds `c.FLAC` (upper-case extension). -/
def exWalk : List WalkDir :=
  [⟨"root", ["a.mp3", "b.txt"]⟩, ⟨"root/sub", ["c.FLAC"]⟩]

/-- Witness for C8: on `exWalk` the scanner returns exactly the `mp3`
and the upper-case `FLAC` file, skipping `b.txt` and both directory
paths. -/
theorem scanner_exact_witness :
    scanWalk exWalk = ["root/a.mp3", "root/sub/c.FLAC"] ∧
    (scanWalk exWalk
        = ((allFiles exWalk).filter
            (fun pn => matchesFormat pn.2)).map Prod.fst ∧
      (∀ q, q ∈ scanWalk exWalk
          ↔ ∃ n, (q, n) ∈ allFiles exWalk ∧ matchesFormat n = true) ∧
      (load_playlist id "root" none).1 = [] ∧
      ("Error: Directory " ++ "root" ++ " does not exist!")
          ∈ (load_playlist id "root" none).2) :=
  ⟨by decide, scanner_exact exWalk "root" id⟩

end MusicPlayer
